import Mathlib

/-!
Verification of the teamwork gateway: a shallow embedding of the proxy
pipeline (`src/main.rs`) and of the build-time schema synthesizer
(`teamwork_macros/src/lib.rs`), with theorems settling the specification's
claims about query forwarding, error normalization, pagination extraction,
auth resolution, link synthesis, and record generation.

Conventions of the embedding:
* query strings are modelled at the level of decoded key/value pair lists,
  the abstraction at which both `url::Url::query_pairs()` (inbound) and
  `serde_qs` (outbound) operate;
* machine integers (`usize`) are modelled as `Nat`; `usize::from_str`
  includes the 64-bit overflow bound;
* behaviour of external crates used by the source (`base64`, `serde_qs`,
  `serde_json`, `http-types`, `serde_with`, `inflector`) is modelled by
  executable Lean functions with the crate function named in the doc
  comment.
-/

namespace Teamwork

/-- Decimal digit character: `digitChar n` for `n < 10` is `'0'`..`'9'`. -/
def digitChar (n : Nat) : Char := Char.ofNat (48 + n)

/-- Decimal digits, most significant first; structural recursion on a fuel
argument so that terms reduce definitionally (`natDigits` supplies fuel
`n + 1`, which always suffices since `n / 10 < n` for `n ≥ 10`). -/
def natDigitsCore : Nat → Nat → List Char
  | 0, _ => []
  | fuel + 1, n =>
      if n < 10 then [digitChar n]
      else natDigitsCore fuel (n / 10) ++ [digitChar (n % 10)]

/-- Decimal digits of a `Nat`, most significant first.  Models the rendering
of `usize` by Rust's `Display` (as used by `format!("{}", n)`). -/
def natDigits (n : Nat) : List Char := natDigitsCore (n + 1) n

/-- Decimal rendering of a `Nat`; models `format!("{}", n)` for `n : usize`. -/
def natToString (n : Nat) : String := String.mk (natDigits n)

/-- Models `usize::from_str` (`"123".parse::<usize>()`): an optional leading
`'+'`, then one or more decimal digits, failing on any other character and on
overflow past `usize::MAX` (64-bit platform). -/
def parseUsize (s : String) : Option Nat :=
  let cs := match s.data with
    | '+' :: rest => rest
    | l => l
  if cs.isEmpty then none
  else if cs.all (fun c => c.isDigit) then
    let v := cs.foldl (fun acc c => acc * 10 + (c.toNat - 48)) 0
    if v < 2 ^ 64 then some v else none
  else none

/-- UTF-8 encoding of one character as byte values; models how Rust `String`
data is laid out in memory (the bytes seen by `base64::encode`). -/
def utf8EncodeChar (ch : Char) : List Nat :=
  let c := ch.toNat
  if c < 0x80 then [c]
  else if c < 0x800 then [0xC0 + c / 64, 0x80 + c % 64]
  else if c < 0x10000 then [0xE0 + c / 4096, 0x80 + c / 64 % 64, 0x80 + c % 64]
  else [0xF0 + c / 262144, 0x80 + c / 4096 % 64, 0x80 + c / 64 % 64, 0x80 + c % 64]

/-- UTF-8 bytes of a string. -/
def utf8Bytes (s : String) : List Nat := s.data.flatMap utf8EncodeChar

/-- Standard base64 alphabet. -/
def base64Char (i : Nat) : Char :=
  "ABCDEFGHIJKLMNOPQRSTUVWXYZabcdefghijklmnopqrstuvwxyz0123456789+/".data.getD i 'A'

/-- Standard base64 of a byte sequence with `=` padding; models
`base64::encode`. -/
def base64Bytes : List Nat → List Char
  | [] => []
  | [a] => [base64Char (a / 4), base64Char (a % 4 * 16), '=', '=']
  | [a, b] => [base64Char (a / 4), base64Char (a % 4 * 16 + b / 16),
               base64Char (b % 16 * 4), '=']
  | a :: b :: c :: rest =>
      base64Char (a / 4) :: base64Char (a % 4 * 16 + b / 16) ::
      base64Char (b % 16 * 4 + c / 64) :: base64Char (c % 64) :: base64Bytes rest

/-- `base64::encode(s)` for a Rust `String` argument. -/
def base64String (s : String) : String := String.mk (base64Bytes (utf8Bytes s))

/-- The slice of `tide::http::Url` the handler reads: `url.path()` and the
decoded key/value pairs yielded by `url.query_pairs()`. -/
structure Url where
  path : String
  queryPairs : List (String × String)

/-- `Meta` from `src/main.rs`. -/
structure Meta where
  page : Nat
  total_pages : Nat

/-- `Links` from `src/main.rs`. -/
structure Links where
  first : String
  last : String
  next : Option String
  prev : Option String
  curr : String

/-- Models `Vec<String>::join("&")`. -/
def joinAmp : List String → String
  | [] => ""
  | [x] => x
  | x :: xs => x ++ "&" ++ joinAmp xs

/-- The `params` string of `Links::new`: the non-`page` query pairs rendered
`k=v`, joined by `&`, with a trailing `&` when non-empty (lines 129-139 of
`src/main.rs`). -/
def renderParams (pairs : List (String × String)) : String :=
  let params := pairs.map (fun p => p.1 ++ "=" ++ p.2)
  if params.isEmpty then "" else joinAmp params ++ "&"

/-- `Links::new` from `src/main.rs` (lines 126-162).  `format!("{}page={}",
link, n)` is rendered as `link ++ "page=" ++ natToString n`, which denotes the
same string. -/
def Links.new (url : Url) (meta : Meta) : Links :=
  let route := url.path
  let params := renderParams (url.queryPairs.filter (fun p => p.1 != "page"))
  let link := route ++ "?" ++ params
  let next := if meta.page < meta.total_pages then
      some (link ++ "page=" ++ natToString (meta.page + 1)) else none
  let prev := if meta.page > 1 then
      some (link ++ "page=" ++ natToString (meta.page - 1)) else none
  { first := link ++ "page=" ++ natToString 1
    last := link ++ "page=" ++ natToString meta.total_pages
    next := next
    prev := prev
    curr := link ++ "page=" ++ natToString meta.page }

/-- The spec's notion of "the link for page `n`" for a given request URL:
the request path, the non-`page` query parameters, and `page=n`. -/
def mkLink (u : Url) (n : Nat) : String :=
  u.path ++ "?" ++ renderParams (u.queryPairs.filter (fun p => p.1 != "page")) ++
    "page=" ++ natToString n

/-- C5: for every `Meta` and request URL, `first` is the page-1 link, `last`
the page-`totalPages` link, `self` the page-`page` link, `prev` the
page-`page-1` link present exactly when `page > 1`, and `next` the
page-`page+1` link present exactly when `page < totalPages`; in particular
`page = 3`, `totalPages = 5` on `/tasks` gives `prev` → page 2, `next` →
page 4, `first` → page 1, `last` → page 5. -/
theorem links_new_pages (u : Url) (m : Meta) :
    (Links.new u m).first = mkLink u 1 ∧
    (Links.new u m).last = mkLink u m.total_pages ∧
    (Links.new u m).curr = mkLink u m.page ∧
    (Links.new u m).prev =
      (if m.page > 1 then some (mkLink u (m.page - 1)) else none) ∧
    (Links.new u m).next =
      (if m.page < m.total_pages then some (mkLink u (m.page + 1)) else none) ∧
    Links.new ⟨"/tasks", []⟩ ⟨3, 5⟩ =
      { first := "/tasks?page=1", last := "/tasks?page=5",
        next := some "/tasks?page=4", prev := some "/tasks?page=2",
        curr := "/tasks?page=3" } :=
  ⟨rfl, rfl, rfl, rfl, rfl, rfl⟩

/-- C9: for `page = 1`, `totalPages = 1` the `prev` and `next` links are both
absent and `first`, `last` and `self` coincide, for every request URL. -/
theorem links_new_single_page (u : Url) :
    (Links.new u ⟨1, 1⟩).prev = none ∧
    (Links.new u ⟨1, 1⟩).next = none ∧
    (Links.new u ⟨1, 1⟩).first = (Links.new u ⟨1, 1⟩).last ∧
    (Links.new u ⟨1, 1⟩).last = (Links.new u ⟨1, 1⟩).curr :=
  ⟨rfl, rfl, rfl, rfl⟩

/-! ### String-level facts used to analyse the emitted link strings -/

theorem strData_append (s t : String) : (s ++ t).data = s.data ++ t.data := by
  cases s; cases t; rfl

theorem strExt {s t : String} (h : s.data = t.data) : s = t := by
  cases s; cases t; cases h; rfl

theorem takeWhile_all_append_cons {α : Type} (p : α → Bool) (xs : List α) (y : α)
    (ys : List α) (hx : ∀ x ∈ xs, p x = true) (hy : p y = false) :
    (xs ++ y :: ys).takeWhile p = xs := by
  induction xs with
  | nil => simp [List.takeWhile, hy]
  | cons a l ih =>
      have ha : p a = true := hx a (by simp)
      simp [List.takeWhile, ha, ih (fun x hm => hx x (by simp [hm]))]

theorem dropWhile_all_append_cons {α : Type} (p : α → Bool) (xs : List α) (y : α)
    (ys : List α) (hx : ∀ x ∈ xs, p x = true) (hy : p y = false) :
    (xs ++ y :: ys).dropWhile p = y :: ys := by
  induction xs with
  | nil => simp [List.dropWhile, hy]
  | cons a l ih =>
      have ha : p a = true := hx a (by simp)
      simp [List.dropWhile, ha, ih (fun x hm => hx x (by simp [hm]))]

theorem digitChar_isDigit (n : Nat) (h : n < 10) : (digitChar n).isDigit = true := by
  interval_cases n <;> decide

theorem natDigitsCore_digits (fuel : Nat) : ∀ (n : Nat), ∀ c ∈ natDigitsCore fuel n,
    c.isDigit = true := by
  induction fuel with
  | zero => intro n c hc; simp [natDigitsCore] at hc
  | succ f ih =>
      intro n c hc
      by_cases h : n < 10
      · simp [natDigitsCore, h] at hc
        subst hc; exact digitChar_isDigit n h
      · simp [natDigitsCore, h] at hc
        rcases hc with hc | hc
        · exact ih (n / 10) c hc
        · subst hc; exact digitChar_isDigit (n % 10) (Nat.mod_lt _ (by omega))

theorem natToString_digits (n : Nat) : ∀ c ∈ (natToString n).data, c.isDigit = true :=
  natDigitsCore_digits (n + 1) n

/-! ### C6: are the emitted links absolute URLs? -/

/-- RFC 3986 scheme detection: a reference is an absolute URI (i.e. carries a
scheme) exactly when a `:` occurs before the first `/`, `?` or `#`. -/
def isAbsoluteUri (s : String) : Bool :=
  (s.data.takeWhile (fun c => c != '/' && c != '?' && c != '#')).contains ':'

/-- C6 counterexample: for the request `/tasks?status=active` on page 2 of 5
the emitted `first` link is `/tasks?status=active&page=1`, a path-and-query
reference with no scheme — not an absolute URL. -/
theorem links_absolute_counterexample :
    (Links.new ⟨"/tasks", [("status", "active")]⟩ ⟨2, 5⟩).first =
      "/tasks?status=active&page=1" ∧
    isAbsoluteUri "/tasks?status=active&page=1" = false :=
  ⟨rfl, rfl⟩

theorem isAbsoluteUri_slash_head {s : String} {t : List Char}
    (h : s.data = '/' :: t) : isAbsoluteUri s = false := by
  simp only [isAbsoluteUri, h]
  rfl

/-- C6 amended: every URL in the emitted `Links` (first, last, self, and when
present prev and next) is a relative path-and-query reference — it extends the
request URL's path and carries no URI scheme — derived from `Meta` and the
request URL. -/
theorem links_relative_refs (u : Url) (m : Meta) {t : List Char}
    (h : u.path.data = '/' :: t) :
    (isAbsoluteUri (Links.new u m).first = false ∧
      ∃ r, (Links.new u m).first = u.path ++ r) ∧
    (isAbsoluteUri (Links.new u m).last = false ∧
      ∃ r, (Links.new u m).last = u.path ++ r) ∧
    (isAbsoluteUri (Links.new u m).curr = false ∧
      ∃ r, (Links.new u m).curr = u.path ++ r) ∧
    (∀ l, (Links.new u m).prev = some l →
      isAbsoluteUri l = false ∧ ∃ r, l = u.path ++ r) ∧
    (∀ l, (Links.new u m).next = some l →
      isAbsoluteUri l = false ∧ ∃ r, l = u.path ++ r) := by
  have key : ∀ (rest : String), isAbsoluteUri (u.path ++ rest) = false ∧
      ∃ r, u.path ++ rest = u.path ++ r := by
    intro rest
    refine ⟨isAbsoluteUri_slash_head (t := t ++ rest.data) ?_, rest, rfl⟩
    simp [strData_append, h]
  have shape : ∀ (k : Nat),
      u.path ++ "?" ++ renderParams (u.queryPairs.filter (fun p => p.1 != "page")) ++
        "page=" ++ natToString k =
      u.path ++ ("?" ++ renderParams (u.queryPairs.filter (fun p => p.1 != "page")) ++
        ("page=" ++ natToString k)) := by
    intro k
    apply strExt
    simp [strData_append]
  refine ⟨?_, ?_, ?_, ?_, ?_⟩
  · rw [show (Links.new u m).first = u.path ++ "?" ++
      renderParams (u.queryPairs.filter (fun p => p.1 != "page")) ++ "page=" ++
      natToString 1 from rfl, shape 1]
    exact key _
  · rw [show (Links.new u m).last = u.path ++ "?" ++
      renderParams (u.queryPairs.filter (fun p => p.1 != "page")) ++ "page=" ++
      natToString m.total_pages from rfl, shape m.total_pages]
    exact key _
  · rw [show (Links.new u m).curr = u.path ++ "?" ++
      renderParams (u.queryPairs.filter (fun p => p.1 != "page")) ++ "page=" ++
      natToString m.page from rfl, shape m.page]
    exact key _
  · intro l hl
    rw [show (Links.new u m).prev = (if m.page > 1 then
        some (u.path ++ "?" ++ renderParams (u.queryPairs.filter (fun p => p.1 != "page")) ++
          "page=" ++ natToString (m.page - 1)) else none) from rfl] at hl
    by_cases hp : m.page > 1
    · rw [if_pos hp] at hl
      cases hl
      rw [shape (m.page - 1)]
      exact key _
    · rw [if_neg hp] at hl; cases hl
  · intro l hl
    rw [show (Links.new u m).next = (if m.page < m.total_pages then
        some (u.path ++ "?" ++ renderParams (u.queryPairs.filter (fun p => p.1 != "page")) ++
          "page=" ++ natToString (m.page + 1)) else none) from rfl] at hl
    by_cases hp : m.page < m.total_pages
    · rw [if_pos hp] at hl
      cases hl
      rw [shape (m.page + 1)]
      exact key _
    · rw [if_neg hp] at hl; cases hl

/-- Witness for the amended C6 at a concrete request. -/
theorem links_relative_refs_witness :
    isAbsoluteUri (Links.new ⟨"/tasks", [("status", "active")]⟩ ⟨2, 5⟩).first = false ∧
    ∃ r, (Links.new ⟨"/tasks", [("status", "active")]⟩ ⟨2, 5⟩).first = "/tasks" ++ r :=
  (links_relative_refs ⟨"/tasks", [("status", "active")]⟩ ⟨2, 5⟩
    (t := ['t', 'a', 's', 'k', 's']) rfl).1

/-! ### C7: the emitted links strip `page` and preserve every other parameter

To state this independently of how `Links::new` concatenates its strings, the
query part of each emitted link is parsed back into key/value pairs
(`parseQS ∘ queryPart`) and compared with the inbound pairs. -/

/-- Split a character list at every occurrence of `sep`. -/
def splitSep (sep : Char) : List Char → List (List Char)
  | [] => [[]]
  | c :: cs =>
      if c = sep then [] :: splitSep sep cs
      else
        match splitSep sep cs with
        | [] => [[c]]
        | r :: rs => (c :: r) :: rs

/-- Read one `k=v` fragment: key before the first `=`, value after it. -/
def parsePairChars (kv : List Char) : String × String :=
  (String.mk (kv.takeWhile (fun c => c != '=')),
   String.mk ((kv.dropWhile (fun c => c != '=')).drop 1))

/-- Parse a query string into its key/value pairs. -/
def parseQS (s : String) : List (String × String) :=
  (splitSep '&' s.data).map parsePairChars

/-- Everything after the first `?` of a link. -/
def queryPart (link : String) : String :=
  String.mk ((link.data.dropWhile (fun c => c != '?')).drop 1)

/-- A pair that round-trips through `k=v` rendering: no `&` in key or value
and no `=` in the key. -/
def goodPair (p : String × String) : Prop :=
  '&' ∉ p.1.data ∧ '&' ∉ p.2.data ∧ '=' ∉ p.1.data

instance (p : String × String) : Decidable (goodPair p) := by
  unfold goodPair; infer_instance

/-- A request URL whose path holds no `?` and whose query pairs round-trip. -/
def goodUrl (u : Url) : Prop :=
  '?' ∉ u.path.data ∧ ∀ p ∈ u.queryPairs, goodPair p

instance (u : Url) : Decidable (goodUrl u) := by
  unfold goodUrl; infer_instance

/-- The characters of one rendered `k=v` fragment. -/
def renderPair (p : String × String) : List Char := p.1.data ++ '=' :: p.2.data

/-- The characters of a whole rendered query: fragments joined by `&`. -/
def renderAllChars : List (String × String) → List Char
  | [] => []
  | [p] => renderPair p
  | p :: rest => renderPair p ++ '&' :: renderAllChars rest

theorem splitSep_of_not_mem (sep : Char) (xs : List Char) (h : sep ∉ xs) :
    splitSep sep xs = [xs] := by
  induction xs with
  | nil => rfl
  | cons c cs ih =>
      have hc : ¬ c = sep := fun he => h (he ▸ List.mem_cons_self c cs)
      simp only [splitSep, if_neg hc, ih (fun hm => h (List.mem_cons_of_mem c hm))]

theorem splitSep_append (sep : Char) (xs ys : List Char) (h : sep ∉ xs) :
    splitSep sep (xs ++ sep :: ys) = xs :: splitSep sep ys := by
  induction xs with
  | nil => simp [splitSep]
  | cons c cs ih =>
      have hc : ¬ c = sep := fun he => h (he ▸ List.mem_cons_self c cs)
      have h2 := ih (fun hm => h (List.mem_cons_of_mem c hm))
      simp only [List.cons_append, splitSep, if_neg hc, List.append_eq, h2]

theorem renderPair_not_mem_amp (p : String × String) (hp : goodPair p) :
    '&' ∉ renderPair p := by
  obtain ⟨h1, h2, _⟩ := hp
  simp only [renderPair]
  intro hm
  rcases List.mem_append.1 hm with hm | hm
  · exact h1 hm
  · rcases List.mem_cons.1 hm with hm | hm
    · exact absurd hm (by decide)
    · exact h2 hm

theorem parsePairChars_renderPair (p : String × String) (hp : '=' ∉ p.1.data) :
    parsePairChars (renderPair p) = p := by
  obtain ⟨k, v⟩ := p
  have hk : ∀ c ∈ k.data, (c != '=') = true := by
    intro c hc
    have : ¬ c = '=' := fun he => hp (he ▸ hc)
    simpa using this
  simp only [parsePairChars, renderPair,
    takeWhile_all_append_cons (fun c => c != '=') k.data '=' v.data hk (by decide),
    dropWhile_all_append_cons (fun c => c != '=') k.data '=' v.data hk (by decide),
    List.drop_succ_cons, List.drop_zero]

theorem parseSplit_renderAll (ps : List (String × String)) (hne : ps ≠ [])
    (hp : ∀ p ∈ ps, goodPair p) :
    (splitSep '&' (renderAllChars ps)).map parsePairChars = ps := by
  induction ps with
  | nil => exact absurd rfl hne
  | cons p rest ih =>
      cases rest with
      | nil =>
          have hgp := hp p (by simp)
          simp only [renderAllChars,
            splitSep_of_not_mem '&' _ (renderPair_not_mem_amp p hgp), List.map_cons,
            List.map_nil, parsePairChars_renderPair p hgp.2.2]
      | cons q qs =>
          have hgp := hp p (by simp)
          have : renderAllChars (p :: q :: qs) =
              renderPair p ++ '&' :: renderAllChars (q :: qs) := rfl
          rw [this, splitSep_append '&' _ _ (renderPair_not_mem_amp p hgp),
            List.map_cons, parsePairChars_renderPair p hgp.2.2,
            ih (by simp) (fun r hr => hp r (List.mem_cons_of_mem p hr))]

theorem renderParams_page_data (ps : List (String × String)) (pg : String) :
    (renderParams ps ++ "page=" ++ pg).data = renderAllChars (ps ++ [("page", pg)]) := by
  induction ps with
  | nil =>
      simp [renderParams, renderAllChars, renderPair, strData_append]
  | cons p rest ih =>
      cases rest with
      | nil =>
          simp [renderParams, renderAllChars, renderPair, joinAmp, strData_append]
      | cons q qs =>
          have hrp : renderParams (p :: q :: qs) =
              (p.1 ++ "=" ++ p.2) ++ "&" ++ renderParams (q :: qs) := by
            simp only [renderParams, List.map_cons, List.isEmpty_cons, joinAmp]
            apply strExt
            simp [strData_append]
          have hra : renderAllChars ((p :: q :: qs) ++ [("page", pg)]) =
              renderPair p ++ '&' :: renderAllChars ((q :: qs) ++ [("page", pg)]) := rfl
          rw [hrp, hra, ← ih]
          simp [strData_append, renderPair]

theorem queryPart_full (path rp pg : String) (h : '?' ∉ path.data) :
    queryPart (path ++ "?" ++ rp ++ "page=" ++ pg) = rp ++ "page=" ++ pg := by
  have hx : ∀ c ∈ path.data, (c != '?') = true := by
    intro c hc
    have : ¬ c = '?' := fun he => h (he ▸ hc)
    simpa using this
  apply strExt
  have hd : (path ++ "?" ++ rp ++ "page=" ++ pg).data =
      path.data ++ '?' :: (rp ++ "page=" ++ pg).data := by
    simp [strData_append]
  simp only [queryPart, hd,
    dropWhile_all_append_cons (fun c => c != '?') path.data '?'
      ((rp ++ "page=" ++ pg).data) hx (by decide),
    List.drop_succ_cons, List.drop_zero]

/-- The non-`page` query parameters of the inbound URL. -/
def otherParams (u : Url) : List (String × String) :=
  u.queryPairs.filter (fun p => p.1 != "page")

theorem goodPair_page (u : Url) (hu : goodUrl u) (k : Nat) :
    ∀ p ∈ otherParams u ++ [("page", natToString k)], goodPair p := by
  intro p hp
  rcases List.mem_append.1 hp with hp | hp
  · exact hu.2 p (List.mem_of_mem_filter hp)
  · rcases List.mem_cons.1 hp with hp | hp
    · subst hp
      refine ⟨?_, ?_, ?_⟩
      · show '&' ∉ ("page" : String).data
        decide
      · intro hm
        exact absurd (natToString_digits k '&' hm) (by decide)
      · show '=' ∉ ("page" : String).data
        decide
    · exact absurd hp (by simp)

theorem parse_link_aux (u : Url) (hu : goodUrl u) (k : Nat) :
    parseQS (queryPart (u.path ++ "?" ++ renderParams (otherParams u) ++
      "page=" ++ natToString k)) = otherParams u ++ [("page", natToString k)] := by
  rw [queryPart_full _ _ _ hu.1]
  simp only [parseQS, renderParams_page_data]
  exact parseSplit_renderAll _ (by simp) (goodPair_page u hu k)

/-- C7: for every inbound request URL (well-formed query pairs), every emitted
link's query parses back to exactly the inbound non-`page` parameters,
unchanged and in order, followed by a single `page` parameter — `page` is
stripped and only `page` varies; in particular for `?status=active&page=2` on
page 2 of 5 every emitted link still carries `status=active`. -/
theorem links_query_roundtrip (u : Url) (m : Meta) (hu : goodUrl u) :
    parseQS (queryPart (Links.new u m).first) =
      otherParams u ++ [("page", natToString 1)] ∧
    parseQS (queryPart (Links.new u m).last) =
      otherParams u ++ [("page", natToString m.total_pages)] ∧
    parseQS (queryPart (Links.new u m).curr) =
      otherParams u ++ [("page", natToString m.page)] ∧
    (∀ l, (Links.new u m).prev = some l →
      parseQS (queryPart l) = otherParams u ++ [("page", natToString (m.page - 1))]) ∧
    (∀ l, (Links.new u m).next = some l →
      parseQS (queryPart l) = otherParams u ++ [("page", natToString (m.page + 1))]) ∧
    Links.new ⟨"/tasks", [("status", "active"), ("page", "2")]⟩ ⟨2, 5⟩ =
      { first := "/tasks?status=active&page=1",
        last := "/tasks?status=active&page=5",
        next := some "/tasks?status=active&page=3",
        prev := some "/tasks?status=active&page=1",
        curr := "/tasks?status=active&page=2" } := by
  refine ⟨parse_link_aux u hu 1, parse_link_aux u hu m.total_pages,
    parse_link_aux u hu m.page, ?_, ?_, rfl⟩
  · intro l hl
    rw [show (Links.new u m).prev = (if m.page > 1 then
        some (u.path ++ "?" ++ renderParams (otherParams u) ++ "page=" ++
          natToString (m.page - 1)) else none) from rfl] at hl
    by_cases hp : m.page > 1
    · rw [if_pos hp] at hl
      cases hl
      exact parse_link_aux u hu (m.page - 1)
    · rw [if_neg hp] at hl; cases hl
  · intro l hl
    rw [show (Links.new u m).next = (if m.page < m.total_pages then
        some (u.path ++ "?" ++ renderParams (otherParams u) ++ "page=" ++
          natToString (m.page + 1)) else none) from rfl] at hl
    by_cases hp : m.page < m.total_pages
    · rw [if_pos hp] at hl
      cases hl
      exact parse_link_aux u hu (m.page + 1)
    · rw [if_neg hp] at hl; cases hl

/-- Witness for C7 at the spec's concrete request `?status=active&page=2`. -/
theorem links_query_roundtrip_witness :
    parseQS (queryPart
      (Links.new ⟨"/tasks", [("status", "active"), ("page", "2")]⟩ ⟨2, 5⟩).first) =
      [("status", "active"), ("page", "1")] :=
  (links_query_roundtrip ⟨"/tasks", [("status", "active"), ("page", "2")]⟩ ⟨2, 5⟩
    (by decide)).1

/-! ### JSON values and `serde_json::from_str` -/

/-- `serde_json::Value`.  Numbers keep only the integral/fractional
distinction that `is_f64` observes; no claim depends on a float's value.
Object fields are kept in document order (the `preserve_order` behaviour the
spec's determinism and field-order guarantees presuppose; the workspace's
Cargo manifests are not under `src/`). -/
inductive Json where
  | null
  | bool (b : Bool)
  | numI (n : Int)
  | numF
  | str (s : String)
  | arr (elems : List Json)
  | obj (fields : List (String × Json))

/-- JSON insignificant whitespace. -/
def skipWs (cs : List Char) : List Char :=
  cs.dropWhile (fun c => c = ' ' || c = '\t' || c = '\n' || c = '\r')

def hexVal (c : Char) : Option Nat :=
  if '0' ≤ c ∧ c ≤ '9' then some (c.toNat - 48)
  else if 'a' ≤ c ∧ c ≤ 'f' then some (c.toNat - 87)
  else if 'A' ≤ c ∧ c ≤ 'F' then some (c.toNat - 55)
  else none

/-- JSON string body after the opening quote: characters until the closing
quote, with the escape sequences and surrogate-pair handling of
`serde_json`; unescaped control characters and lone surrogates fail. -/
def parseStringChars : List Char → Option (List Char × List Char)
  | [] => none
  | '"' :: rest => some ([], rest)
  | '\\' :: 'n' :: rest => (parseStringChars rest).map (fun p => ('\n' :: p.1, p.2))
  | '\\' :: 't' :: rest => (parseStringChars rest).map (fun p => ('\t' :: p.1, p.2))
  | '\\' :: 'r' :: rest => (parseStringChars rest).map (fun p => ('\r' :: p.1, p.2))
  | '\\' :: 'b' :: rest =>
      (parseStringChars rest).map (fun p => (Char.ofNat 8 :: p.1, p.2))
  | '\\' :: 'f' :: rest =>
      (parseStringChars rest).map (fun p => (Char.ofNat 12 :: p.1, p.2))
  | '\\' :: '"' :: rest => (parseStringChars rest).map (fun p => ('"' :: p.1, p.2))
  | '\\' :: '\\' :: rest => (parseStringChars rest).map (fun p => ('\\' :: p.1, p.2))
  | '\\' :: '/' :: rest => (parseStringChars rest).map (fun p => ('/' :: p.1, p.2))
  | '\\' :: 'u' :: a :: b :: c :: d :: rest => do
      let ha ← hexVal a
      let hb ← hexVal b
      let hc ← hexVal c
      let hd ← hexVal d
      let n := ha * 4096 + hb * 256 + hc * 16 + hd
      if 0xD800 ≤ n ∧ n < 0xDC00 then
        match rest with
        | '\\' :: 'u' :: a2 :: b2 :: c2 :: d2 :: rest2 => do
            let ha2 ← hexVal a2
            let hb2 ← hexVal b2
            let hc2 ← hexVal c2
            let hd2 ← hexVal d2
            let n2 := ha2 * 4096 + hb2 * 256 + hc2 * 16 + hd2
            if 0xDC00 ≤ n2 ∧ n2 < 0xE000 then
              (parseStringChars rest2).map (fun p =>
                (Char.ofNat (0x10000 + (n - 0xD800) * 1024 + (n2 - 0xDC00)) :: p.1, p.2))
            else none
        | _ => none
      else if 0xDC00 ≤ n ∧ n < 0xE000 then none
      else (parseStringChars rest).map (fun p => (Char.ofNat n :: p.1, p.2))
  | '\\' :: _ => none
  | c :: rest =>
      if c.toNat < 0x20 then none
      else (parseStringChars rest).map (fun p => (c :: p.1, p.2))

def digitsVal (l : List Char) : Nat := l.foldl (fun a c => a * 10 + (c.toNat - 48)) 0

/-- Optional exponent part; returns whether one was present. -/
def parseExp (cs : List Char) : Option (Bool × List Char) :=
  match cs with
  | 'e' :: r | 'E' :: r =>
      let r2 := match r with
        | '+' :: rr => rr
        | '-' :: rr => rr
        | rr => rr
      match r2 with
      | c :: _ =>
          if c.isDigit then some (true, r2.dropWhile (fun c => c.isDigit)) else none
      | [] => none
  | r => some (false, r)

/-- Fraction and exponent after the integer part; a number with either is a
float (`is_f64`), otherwise an integer.  (serde_json turns `-0` and integers
past the `u64`/`i64` range into floats; no claim depends on those.) -/
def afterInt (neg : Bool) (ip : Nat) (cs : List Char) : Option (Json × List Char) :=
  let fracRes : Option (Bool × List Char) :=
    match cs with
    | '.' :: r =>
        match r with
        | c :: _ =>
            if c.isDigit then some (true, r.dropWhile (fun c => c.isDigit)) else none
        | [] => none
    | r => some (false, r)
  match fracRes with
  | none => none
  | some (hasFrac, cs2) =>
      match parseExp cs2 with
      | none => none
      | some (hasExp, cs3) =>
          if hasFrac || hasExp then some (Json.numF, cs3)
          else some (Json.numI (if neg then -(ip : Int) else (ip : Int)), cs3)

/-- JSON number: optional `-`, integer part with no leading zero, optional
fraction and exponent. -/
def parseNumber (cs : List Char) : Option (Json × List Char) :=
  let p : Bool × List Char :=
    match cs with
    | '-' :: r => (true, r)
    | r => (false, r)
  match p.2 with
  | [] => none
  | c :: r =>
      if c = '0' then afterInt p.1 0 r
      else if c.isDigit then
        afterInt p.1 (digitsVal (c :: r.takeWhile (fun c => c.isDigit)))
          (r.dropWhile (fun c => c.isDigit))
      else none

mutual

def parseJsonVal : Nat → List Char → Option (Json × List Char)
  | 0, _ => none
  | fuel + 1, cs =>
      match skipWs cs with
      | 'n' :: 'u' :: 'l' :: 'l' :: rest => some (.null, rest)
      | 't' :: 'r' :: 'u' :: 'e' :: rest => some (.bool true, rest)
      | 'f' :: 'a' :: 'l' :: 's' :: 'e' :: rest => some (.bool false, rest)
      | '"' :: rest => (parseStringChars rest).map (fun p => (.str (String.mk p.1), p.2))
      | '[' :: rest =>
          (match skipWs rest with
            | ']' :: r => some (.arr [], r)
            | r => (parseElems fuel r).map (fun p => (.arr p.1, p.2)))
      | '{' :: rest =>
          (match skipWs rest with
            | '}' :: r => some (.obj [], r)
            | r => (parseMembers fuel r).map (fun p => (.obj p.1, p.2)))
      | c :: rest =>
          if c = '-' || c.isDigit then parseNumber (c :: rest) else none
      | [] => none

def parseElems : Nat → List Char → Option (List Json × List Char)
  | 0, _ => none
  | fuel + 1, cs => do
      let (v, rest) ← parseJsonVal fuel cs
      match skipWs rest with
      | ',' :: r => (parseElems fuel r).map (fun p => (v :: p.1, p.2))
      | ']' :: r => some ([v], r)
      | _ => none

def parseMembers : Nat → List Char → Option (List (String × Json) × List Char)
  | 0, _ => none
  | fuel + 1, cs =>
      match skipWs cs with
      | '"' :: rest => do
          let (k, r1) ← parseStringChars rest
          match skipWs r1 with
          | ':' :: r2 => do
              let (v, r3) ← parseJsonVal fuel r2
              match skipWs r3 with
              | ',' :: r4 =>
                  (parseMembers fuel r4).map (fun p => ((String.mk k, v) :: p.1, p.2))
              | '}' :: r4 => some ([(String.mk k, v)], r4)
              | _ => none
          | _ => none
      | _ => none

end

/-- Models `serde_json::from_str::<serde_json::Value>`: the full JSON grammar
with insignificant whitespace and nothing but whitespace after the value.
Fuel `2 * length + 2` strictly exceeds what any input can demand, since every
two recursion steps consume at least one character. -/
def parseJson (s : String) : Option Json :=
  match parseJsonVal (2 * s.data.length + 2) s.data with
  | some (v, rest) => if (skipWs rest).isEmpty then some v else none
  | none => none

/-! ### The proxy pipeline of `base_handler` and the error normalizer -/

/-- The failure modes of the handler as `tide` sees them: the repo's `Error`
variants that can reach the `After` filter (`TeamworkError`,
`MissingHeader`), plus the `tide::Error`s produced by auth resolution
(status 400), query deserialization (status 400), `usize::from_str` on the
`X-Pages` header, and body decoding. -/
inductive HandlerError where
  | clientError (status : Nat) (msg : String)
  | teamworkError (status : Nat) (message : String) (body : Option Json)
  | missingHeader (name : String)
  | parseIntError
  | decodeError

/-- Models `http_types::StatusCode::canonical_reason`.  `StatusCode` is an
enum of exactly the listed codes, so the catch-all arm is unreachable for
any status an upstream response can carry. -/
def canonicalReason (status : Nat) : String :=
  match status with
  | 100 => "Continue"
  | 101 => "Switching Protocols"
  | 103 => "Early Hints"
  | 200 => "OK"
  | 201 => "Created"
  | 202 => "Accepted"
  | 203 => "Non-Authoritative Information"
  | 204 => "No Content"
  | 205 => "Reset Content"
  | 206 => "Partial Content"
  | 207 => "Multi-Status"
  | 226 => "IM Used"
  | 300 => "Multiple Choice"
  | 301 => "Moved Permanently"
  | 302 => "Found"
  | 303 => "See Other"
  | 304 => "Not Modified"
  | 305 => "Use Proxy"
  | 307 => "Temporary Redirect"
  | 308 => "Permanent Redirect"
  | 400 => "Bad Request"
  | 401 => "Unauthorized"
  | 402 => "Payment Required"
  | 403 => "Forbidden"
  | 404 => "Not Found"
  | 405 => "Method Not Allowed"
  | 406 => "Not Acceptable"
  | 407 => "Proxy Authentication Required"
  | 408 => "Request Timeout"
  | 409 => "Conflict"
  | 410 => "Gone"
  | 411 => "Length Required"
  | 412 => "Precondition Failed"
  | 413 => "Payload Too Large"
  | 414 => "URI Too Long"
  | 415 => "Unsupported Media Type"
  | 416 => "Requested Range Not Satisfiable"
  | 417 => "Expectation Failed"
  | 418 => "I\x27m a teapot"
  | 421 => "Misdirected Request"
  | 422 => "Unprocessable Entity"
  | 423 => "Locked"
  | 424 => "Failed Dependency"
  | 425 => "Too Early"
  | 426 => "Upgrade Required"
  | 428 => "Precondition Required"
  | 429 => "Too Many Requests"
  | 431 => "Request Header Fields Too Large"
  | 451 => "Unavailable For Legal Reasons"
  | 500 => "Internal Server Error"
  | 501 => "Not Implemented"
  | 502 => "Bad Gateway"
  | 503 => "Service Unavailable"
  | 504 => "Gateway Timeout"
  | 505 => "HTTP Version Not Supported"
  | 506 => "Variant Also Negotiates"
  | 507 => "Insufficient Storage"
  | 508 => "Loop Detected"
  | 510 => "Not Extended"
  | 511 => "Network Authentication Required"
  | _ => ""

/-- Models `http_types::StatusCode::is_success`: `200..=299`. -/
def isSuccessStatus (s : Nat) : Bool := 200 ≤ s && s < 300

/-- Error-path body decoding (lines 215-222 of `src/main.rs`): attempt a JSON
parse of the body text, falling back to the raw string.  (`body_string()` is
modelled as always yielding the UTF-8 body text.) -/
def decodeErrorBody (b : String) : Json :=
  match parseJson b with
  | some v => v
  | none => Json.str b

/-- The `Query` struct: `page` (serde default 1), `per_page` (renamed to
`pageSize` on serialization), and the flattened map of all other parameters,
modelled as the pair list in inbound order. -/
structure QueryModel where
  page : Nat
  per_page : Option Nat
  other : List (String × String)

/-- First value bound to a key, as serde_qs sees the decoded pairs. -/
def lookupParam (pairs : List (String × String)) (k : String) : Option String :=
  match pairs with
  | [] => none
  | p :: rest => if p.1 = k then some p.2 else lookupParam rest k

/-- Models `req.query::<Query>()` (serde_qs deserialization of `Query`):
`page` defaults to 1 and must parse as `usize` when present, `per_page` is
optional, every other parameter lands in the flattened `other` map.  Keys are
taken bracket-free (serde_qs nesting is not exercised by the routes), and a
parse failure is the status-400 `tide::Error` that `req.query()?` raises. -/
def parsePageParam (pairs : List (String × String)) : Except HandlerError Nat :=
  match lookupParam pairs "page" with
  | none => .ok 1
  | some v =>
      match parseUsize v with
      | some n => .ok n
      | none => .error (.clientError 400 "failed to deserialize query")

def parsePerPageParam (pairs : List (String × String)) :
    Except HandlerError (Option Nat) :=
  match lookupParam pairs "per_page" with
  | none => .ok none
  | some v =>
      match parseUsize v with
      | some n => .ok (some n)
      | none => .error (.clientError 400 "failed to deserialize query")

def parseQuery (pairs : List (String × String)) : Except HandlerError QueryModel :=
  match parsePageParam pairs with
  | .error e => .error e
  | .ok page =>
      match parsePerPageParam pairs with
      | .error e => .error e
      | .ok perPage =>
          .ok { page := page, per_page := perPage,
                other := pairs.filter (fun p => p.1 != "page" && p.1 != "per_page") }

/-- Models `serde_qs::to_string(&query)` (reached through surf's
`RequestBuilder::query` → `http_types::Request::set_query`): the struct's
fields in declaration order — `page` always present, `per_page` renamed
`pageSize` and skipped when `None` — followed by the flattened map's
entries (`HashMap` iteration modelled in inbound order). -/
def serializeQuery (q : QueryModel) : List (String × String) :=
  ("page", natToString q.page) ::
    (match q.per_page with
     | some n => [("pageSize", natToString n)]
     | none => []) ++ q.other

/-- The query portion of the single outbound GET.  `base_handler` first
formats the raw inbound query string into the URL (lines 195-208) and then
calls `.query(&query)` (line 209); surf's `RequestBuilder::query` calls
`http_types::Request::set_query`, which serializes the `Query` value with
`serde_qs` and replaces the URL's query string wholesale
(`url.set_query(Some(..))`), so the query that actually goes out is exactly
the re-serialization of the parsed query. -/
def outboundQuery (pairs : List (String × String)) :
    Except HandlerError (List (String × String)) :=
  (parseQuery pairs).map serializeQuery

/-- Auth resolution (lines 178-191): forward an inbound `Authorization`
header verbatim; else synthesize `Basic <base64("<key>: ")>` from the
configured API key; else the status-400 `tide::Error`. -/
def resolveAuth (authHeader : Option String) (apiKey : Option String) :
    Except HandlerError String :=
  match authHeader with
  | some h => .ok h
  | none =>
      match apiKey with
      | some key => .ok ("Basic " ++ base64String (key ++ ": "))
      | none => .error (.clientError 400
          "Request missing authorization header and API_KEY is unnset")

/-- What the handler reads from the upstream response: status, the two
pagination headers, and the body text. -/
structure UpstreamResponse where
  status : Nat
  xPage : Option String
  xPages : Option String
  body : String

/-- Pagination extraction (lines 231-243): `X-Page` parsed as `usize`,
defaulting to 1 when absent or unparsable (`.map(..).flatten().unwrap_or(1)`);
`X-Pages` mandatory (`Error::MissingHeader`) and parsed with
`usize::from_str`, whose failure is the `?`-converted `ParseIntError`. -/
def extractMeta (r : UpstreamResponse) : Except HandlerError Meta :=
  match r.xPages with
  | none => .error (.missingHeader "X-Pages")
  | some s =>
      match parseUsize s with
      | some tp => .ok { page := (r.xPage.bind parseUsize).getD 1, total_pages := tp }
      | none => .error .parseIntError

/-- Status check (lines 214-229): a non-2xx upstream status short-circuits
with `Error::TeamworkError(status, canonical reason, best-effort body)`. -/
def checkStatus (r : UpstreamResponse) : Except HandlerError Unit :=
  if isSuccessStatus r.status then .ok ()
  else .error (.teamworkError r.status (canonicalReason r.status)
      (some (decodeErrorBody r.body)))

/-- The single outbound GET: target URL base, query pairs, auth header. -/
structure OutboundRequest where
  urlBase : String
  query : List (String × String)
  auth : String

/-- What the inbound `tide::Request` supplies to the handler. -/
structure InboundRequest where
  authHeader : Option String
  url : Url

/-- The outbound GET the handler issues: `format!("{}/{}{}", endpoint, route,
params)` with the query then replaced by `.query(&query)` (see
`outboundQuery`), under the resolved auth header. -/
def mkOutbound (endpoint route : String) (q : QueryModel) (auth : String) :
    OutboundRequest :=
  { urlBase := endpoint ++ "/" ++ route, query := serializeQuery q, auth := auth }

/-- The `Link` header (lines 249-259): self and first, then prev and next
when present, then last, in that fixed order. -/
def mkLinkHeader (links : Links) : String :=
  let h := "<" ++ links.curr ++ ">;rel=self,<" ++ links.first ++ ">;rel=first"
  let h := match links.prev with
    | some prev => h ++ ",<" ++ prev ++ ">;rel=prev"
    | none => h
  let h := match links.next with
    | some next => h ++ ",<" ++ next ++ ">;rel=next"
    | none => h
  h ++ ",<" ++ links.last ++ ">;rel=last"

/-- A successful pipeline outcome: the `ApiResponse` payload and the `Link`
header value. -/
structure PipelineSuccess where
  data : List Json
  meta : Meta
  links : Links
  linkHeader : String

/-- The proxy pipeline of `base_handler` (lines 173-272).  The outbound
transport is the capability `upstream`; `decodeData` models
`body_json::<T2>()` followed by `.data()` for the bound record type. -/
def base_handler (apiKey : Option String) (endpoint route : String)
    (req : InboundRequest) (upstream : OutboundRequest → UpstreamResponse)
    (decodeData : String → Option (List Json)) :
    Except HandlerError PipelineSuccess :=
  match resolveAuth req.authHeader apiKey with
  | .error e => .error e
  | .ok auth =>
      match parseQuery req.url.queryPairs with
      | .error e => .error e
      | .ok q =>
          let resp := upstream (mkOutbound endpoint route q auth)
          match checkStatus resp with
          | .error e => .error e
          | .ok _ =>
              match extractMeta resp with
              | .error e => .error e
              | .ok meta =>
                  match decodeData resp.body with
                  | none => .error HandlerError.decodeError
                  | some data =>
                      let links := Links.new req.url meta
                      .ok { data := data, meta := meta, links := links,
                            linkHeader := mkLinkHeader links }

/-- A client-visible response: status and JSON body. -/
structure HttpResponse where
  status : Nat
  body : Json

/-- The HTTP status tide assigns before the `After` filter runs: the given
status for `tide::Error::from_str(status, ..)` (auth and query failures),
500 for every error converted through `?` from another error type, including
`Error::TeamworkError` and `Error::MissingHeader`. -/
def defaultStatus : HandlerError → Nat
  | .clientError s _ => s
  | .teamworkError _ _ _ => 500
  | .missingHeader _ => 500
  | .parseIntError => 500
  | .decodeError => 500

/-- The `serde_json::json!` error envelope of `error_handler`
(lines 304-311); an absent body serializes as `null`. -/
def errorEnvelope (code : Nat) (message : String) (body : Option Json) : Json :=
  Json.obj [("error", Json.obj [("code", Json.numI code),
    ("message", Json.str message),
    ("teamwork_response", body.getD Json.null)])]

/-- `error_handler` (lines 286-316): only a response whose attached error
downcasts to `Error::TeamworkError` is rewritten — to the captured upstream
status and the error envelope; everything else passes through unchanged. -/
def error_handler (res : HttpResponse) (err : Option HandlerError) : HttpResponse :=
  match err with
  | some (.teamworkError status message body) =>
      { status := status, body := errorEnvelope status message body }
  | _ => res

def errorOf : Except HandlerError PipelineSuccess → Option HandlerError
  | .error e => some e
  | .ok _ => none

/-- The response before the filter: 200 with the serialized envelope on
success (`serialize` models `Body::from_json(&ApiResponse)`), the error's
tide status with an empty body otherwise. -/
def initialResponse (r : Except HandlerError PipelineSuccess)
    (serialize : PipelineSuccess → Json) : HttpResponse :=
  match r with
  | .ok s => { status := 200, body := serialize s }
  | .error e => { status := defaultStatus e, body := Json.null }

/-- The full request path: pipeline, then `tide::utils::After(error_handler)`. -/
def respond (r : Except HandlerError PipelineSuccess)
    (serialize : PipelineSuccess → Json) : HttpResponse :=
  error_handler (initialResponse r serialize) (errorOf r)

/-! ### C1: is the inbound query string forwarded untouched? -/

/-- C1 counterexample: for the inbound query `?status=active` the single
outbound GET carries `page=1&status=active` — a `page` parameter the caller
never sent has been added — so the outbound query does not equal the inbound
query string. -/
theorem outboundQuery_counterexample :
    outboundQuery [("status", "active")] =
      Except.ok [("page", "1"), ("status", "active")] ∧
    outboundQuery [("status", "active")] ≠ Except.ok [("status", "active")] := by
  refine ⟨rfl, fun h => ?_⟩
  have h2 : Except.ok (ε := HandlerError)
      [(("page" : String), ("1" : String)), ("status", "active")] =
      Except.ok [("status", "active")] :=
    (rfl : outboundQuery [("status", "active")] =
      Except.ok [("page", "1"), ("status", "active")]).symm.trans h
  injection h2 with h3
  exact absurd h3 (by decide)

theorem parseQuery_ok_other (pairs : List (String × String)) (q : QueryModel)
    (h : parseQuery pairs = Except.ok q) :
    q.other = pairs.filter (fun p => p.1 != "page" && p.1 != "per_page") := by
  unfold parseQuery at h
  split at h
  · exact absurd h (by simp)
  · split at h
    · exact absurd h (by simp)
    · injection h with h2
      subst h2
      rfl

/-- C1 amended: the forwarder does splice the raw inbound query string into
the upstream URL, but `.query(&query)` then replaces it wholesale, so the
query of the single outbound GET is the re-serialization of the parsed
`Query`: a `page` parameter is always present (the parsed inbound value,
default 1), an inbound `per_page` is renamed `pageSize`, and every other
parameter passes through unchanged (order as modelled). -/
theorem outboundQuery_reserializes (pairs : List (String × String)) (q : QueryModel)
    (h : parseQuery pairs = Except.ok q) :
    outboundQuery pairs =
      Except.ok (("page", natToString q.page) ::
        (match q.per_page with
         | some n => [("pageSize", natToString n)]
         | none => []) ++
        pairs.filter (fun p => p.1 != "page" && p.1 != "per_page")) := by
  unfold outboundQuery
  rw [h]
  show Except.ok (serializeQuery q) = _
  unfold serializeQuery
  rw [parseQuery_ok_other pairs q h]

/-- Witness for the amended C1: `?status=active&per_page=5&page=2` goes out
as `page=2&pageSize=5&status=active`. -/
theorem outboundQuery_reserializes_witness :
    outboundQuery [("status", "active"), ("per_page", "5"), ("page", "2")] =
      Except.ok [("page", "2"), ("pageSize", "5"), ("status", "active")] :=
  outboundQuery_reserializes [("status", "active"), ("per_page", "5"), ("page", "2")]
    ⟨2, some 5, [("status", "active")]⟩ rfl

/-! ### C4: auth resolution -/

/-- C4: an inbound `Authorization` header is forwarded verbatim; otherwise a
configured key `k` yields `Basic base64(k ++ ": ")` (for `"abc"` exactly
`Basic YWJjOiA=`); otherwise the handler fails with the 400 client error and
the outcome does not depend on the upstream capability — no network call is
made. -/
theorem auth_resolution (hdr key : String) (apiKey : Option String)
    (endpoint route : String) (req : InboundRequest)
    (upstream1 upstream2 : OutboundRequest → UpstreamResponse)
    (decodeData : String → Option (List Json))
    (hnone : req.authHeader = none) :
    resolveAuth (some hdr) apiKey = Except.ok hdr ∧
    resolveAuth none (some key) =
      Except.ok ("Basic " ++ base64String (key ++ ": ")) ∧
    resolveAuth none (some "abc") = Except.ok "Basic YWJjOiA=" ∧
    base_handler none endpoint route req upstream1 decodeData =
      Except.error (HandlerError.clientError 400
        "Request missing authorization header and API_KEY is unnset") ∧
    base_handler none endpoint route req upstream1 decodeData =
      base_handler none endpoint route req upstream2 decodeData := by
  refine ⟨rfl, rfl, rfl, ?_, ?_⟩
  · unfold base_handler
    rw [hnone]
    rfl
  · unfold base_handler
    rw [hnone]
    rfl

/-- Witness for C4: no inbound header, static key `"abc"`, and the
no-header/no-key failure at a concrete request. -/
theorem auth_resolution_witness :
    resolveAuth none (some "abc") = Except.ok "Basic YWJjOiA=" ∧
    base_handler none "https://x.test" "tasks.json"
      { authHeader := none, url := ⟨"/tasks", []⟩ }
      (fun _ => ⟨200, none, some "1", ""⟩) (fun _ => some []) =
      Except.error (HandlerError.clientError 400
        "Request missing authorization header and API_KEY is unnset") := by
  have h := auth_resolution "h" "abc" none "https://x.test" "tasks.json"
    { authHeader := none, url := ⟨"/tasks", []⟩ }
    (fun _ => ⟨200, none, some "1", ""⟩) (fun _ => ⟨200, none, some "1", ""⟩)
    (fun _ => some []) rfl
  exact ⟨h.2.2.1, h.2.2.2.1⟩

/-! ### C3: pagination extraction -/

/-- C3: the current-page header defaults to 1 when absent or unparsable, a
missing total-pages header fails with `MissingHeader("X-Pages")`, and a total
page count is never fabricated — on success it is exactly the parsed
`X-Pages` value. -/
theorem extractMeta_spec (r : UpstreamResponse) :
    (r.xPages = none →
      extractMeta r = Except.error (HandlerError.missingHeader "X-Pages")) ∧
    (∀ s tp, r.xPages = some s → parseUsize s = some tp →
      (r.xPage = none ∨ ∃ t, r.xPage = some t ∧ parseUsize t = none) →
      extractMeta r = Except.ok ⟨1, tp⟩) ∧
    (∀ s tp, r.xPages = some s → parseUsize s = some tp →
      ∀ pg n, r.xPage = some pg → parseUsize pg = some n →
      extractMeta r = Except.ok ⟨n, tp⟩) ∧
    (∀ m, extractMeta r = Except.ok m →
      ∃ s, r.xPages = some s ∧ parseUsize s = some m.total_pages) := by
  refine ⟨?_, ?_, ?_, ?_⟩
  · intro h
    unfold extractMeta
    rw [h]
  · intro s tp hs hp hd
    unfold extractMeta
    simp only [hs, hp]
    rcases hd with hd | ⟨t, ht, hpt⟩
    · simp [hd, Option.bind]
    · simp [ht, hpt, Option.bind]
  · intro s tp hs hp pg n hpg hn
    unfold extractMeta
    simp only [hs, hp]
    simp [hpg, hn, Option.bind]
  · intro m h
    unfold extractMeta at h
    rcases hx : r.xPages with _ | s
    · simp [hx] at h
    · rcases hp : parseUsize s with _ | tp
      · simp [hx, hp] at h
      · simp only [hx, hp] at h
        injection h with h2
        subst h2
        exact ⟨s, rfl, by rw [hp]⟩

/-- Witness for C3: missing `X-Pages`, unparsable `X-Page`, and the ordinary
parsed case. -/
theorem extractMeta_spec_witness :
    extractMeta ⟨200, none, none, ""⟩ =
      Except.error (HandlerError.missingHeader "X-Pages") ∧
    extractMeta ⟨200, some "abc", some "5", ""⟩ = Except.ok ⟨1, 5⟩ ∧
    extractMeta ⟨200, some "2", some "5", ""⟩ = Except.ok ⟨2, 5⟩ := by
  refine ⟨(extractMeta_spec _).1 rfl, ?_, ?_⟩
  · exact (extractMeta_spec _).2.1 "5" 5 rfl rfl (Or.inr ⟨"abc", rfl, rfl⟩)
  · exact (extractMeta_spec _).2.2.1 "5" 5 rfl rfl "2" 2 rfl rfl

/-! ### C2: non-2xx upstream responses are mirrored to the client -/

/-- C2: a non-2xx upstream status short-circuits the pipeline with
`TeamworkError(status, canonical reason, body JSON-decoded with fallback to
the raw string)`, and after `error_handler` the client receives that same
status with the `{"error":{"code","message","teamwork_response"}}`
envelope. -/
theorem upstream_error_mirrored (apiKey : Option String) (endpoint route : String)
    (req : InboundRequest) (upstream : OutboundRequest → UpstreamResponse)
    (decodeData : String → Option (List Json)) (serialize : PipelineSuccess → Json)
    (auth : String) (q : QueryModel)
    (h1 : resolveAuth req.authHeader apiKey = Except.ok auth)
    (h2 : parseQuery req.url.queryPairs = Except.ok q)
    (h3 : isSuccessStatus (upstream (mkOutbound endpoint route q auth)).status = false) :
    base_handler apiKey endpoint route req upstream decodeData =
      Except.error (HandlerError.teamworkError
        (upstream (mkOutbound endpoint route q auth)).status
        (canonicalReason (upstream (mkOutbound endpoint route q auth)).status)
        (some (decodeErrorBody (upstream (mkOutbound endpoint route q auth)).body))) ∧
    respond (base_handler apiKey endpoint route req upstream decodeData) serialize =
      { status := (upstream (mkOutbound endpoint route q auth)).status,
        body := errorEnvelope
          (upstream (mkOutbound endpoint route q auth)).status
          (canonicalReason (upstream (mkOutbound endpoint route q auth)).status)
          (some (decodeErrorBody
            (upstream (mkOutbound endpoint route q auth)).body)) } := by
  have hb : base_handler apiKey endpoint route req upstream decodeData =
      Except.error (HandlerError.teamworkError
        (upstream (mkOutbound endpoint route q auth)).status
        (canonicalReason (upstream (mkOutbound endpoint route q auth)).status)
        (some (decodeErrorBody (upstream (mkOutbound endpoint route q auth)).body))) := by
    simp only [base_handler, h1, h2, checkStatus, h3, Bool.false_eq_true,
      if_false]
  refine ⟨hb, ?_⟩
  rw [hb]
  rfl

/-- Witness for C2: upstream 404 with body `{"msg":"not found"}` yields the
mirrored 404 and the envelope carrying the decoded body. -/
theorem upstream_error_mirrored_witness :
    base_handler none "https://x.test" "tasks.json"
      { authHeader := some "token", url := ⟨"/tasks", []⟩ }
      (fun _ => ⟨404, none, none, "\x7b\"msg\":\"not found\"\x7d"⟩) (fun _ => some []) =
      Except.error (HandlerError.teamworkError 404 "Not Found"
        (some (Json.obj [("msg", Json.str "not found")]))) ∧
    respond (base_handler none "https://x.test" "tasks.json"
      { authHeader := some "token", url := ⟨"/tasks", []⟩ }
      (fun _ => ⟨404, none, none, "\x7b\"msg\":\"not found\"\x7d"⟩) (fun _ => some []))
      (fun _ => Json.null) =
      { status := 404,
        body := errorEnvelope 404 "Not Found"
          (some (Json.obj [("msg", Json.str "not found")])) } :=
  upstream_error_mirrored none "https://x.test" "tasks.json"
    { authHeader := some "token", url := ⟨"/tasks", []⟩ }
    (fun _ => ⟨404, none, none, "\x7b\"msg\":\"not found\"\x7d"⟩) (fun _ => some [])
    (fun _ => Json.null) "token" ⟨1, none, []⟩ rfl rfl rfl

/-! ### The build-time schema synthesizer (`teamwork_macros/src/lib.rs`) -/

/-- Models `Inflector::to_snake_case` (external crate): `-` and spaces become
`_`, an upper-case letter is preceded by `_` unless it starts the word, and
everything is lowered. -/
def snakeStep (acc : List Char) (c : Char) : List Char :=
  if c = '-' || c = ' ' then acc ++ ['_']
  else if c.isUpper then
    if !acc.isEmpty && acc.getLast? != some '_' then acc ++ ['_', c.toLower]
    else acc ++ [c.toLower]
  else acc ++ [c]

def toSnakeCase (s : String) : String := String.mk (s.data.foldl snakeStep [])

/-- Models `Inflector::to_pascal_case` (external crate): drop `-`, `_` and
spaces, capitalizing the letter that follows each of them and the first
letter. -/
def pascalChars : List Char → Bool → List Char
  | [], _ => []
  | c :: cs, cap =>
      if c = '-' || c = '_' || c = ' ' then pascalChars cs true
      else if cap then c.toUpper :: pascalChars cs false
      else c :: pascalChars cs false

def toPascalCase (s : String) : String := String.mk (pascalChars s.data true)

/-- Models `Inflector::to_singular` (external crate) on the regular plurals
the samples contain. -/
def toSingular (s : String) : String :=
  if s.endsWith "ies" then s.dropRight 3 ++ "y"
  else if s.endsWith "ss" then s
  else if s.endsWith "s" then s.dropRight 1
  else s

/-- The `RENAMED` synonym table (lines 12-22): `created_on → created_at`,
`last_changed_on → updated_at`. -/
def renamedLookup (s : String) : Option String :=
  if s = "created_on" then some "created_at"
  else if s = "last_changed_on" then some "updated_at"
  else none

/-- Lines 38-42: snake-case the provider key, then apply the synonym table. -/
def normalizeFieldName (old : String) : String :=
  let snake := toSnakeCase old
  match renamedLookup snake with
  | some t => t
  | none => snake

/-- The type of a generated field, always optional (lines 48-100). -/
inductive FieldTy where
  | optString
  | optI64
  | optF64
  | optBool
  | optRecord (name : String)
  | optVecRecord (name : String)
  | optRawJson
deriving DecidableEq

/-- One generated field: provider key (serde rename), normalized name,
inferred type, and whether the string-specific attributes (`default`,
`serde_with::rust::string_empty_as_none::deserialize`) are attached. -/
structure FieldSpec where
  old_name : String
  new_name : String
  ty : FieldTy
  emptyStringAsNone : Bool
deriving DecidableEq

/-- One generated record (`Object`): its pascal-cased name and ordered
fields. -/
structure ObjectSpec where
  name : String
  fields : List FieldSpec
deriving DecidableEq

/-- `Builder`: the `structs: HashMap<String, Object>`, modelled as an
association list with keyed lookup and replace-on-insert; only `expand`'s
emission order depends on the real `HashMap`'s unspecified iteration order,
never the contents. -/
structure Builder where
  structs : List (String × ObjectSpec)
deriving DecidableEq

def lookupStruct : List (String × ObjectSpec) → String → Option ObjectSpec
  | [], _ => none
  | p :: rest, k => if p.1 = k then some p.2 else lookupStruct rest k

def mapInsert : List (String × ObjectSpec) → String → ObjectSpec →
    List (String × ObjectSpec)
  | [], k, o => [(k, o)]
  | p :: rest, k, o => if p.1 = k then (k, o) :: rest else p :: mapInsert rest k o

mutual

/-- One field of `Builder::create_object_from_map` (lines 35-119): normalize
the key, infer the generated type from the sample value's shape, recursing
into a nested object (or the first element of a non-empty array of objects)
unless a record of the derived name already exists.  The source's
`self.structs.get(&obj_name).unwrap().name_ident` is the derived name itself,
since every entry is stored under its own name. -/
def processField (b : Builder) (old : String) (v : Json) : Builder × FieldSpec :=
  let new_name := normalizeFieldName old
  match v with
  | .str _ => (b, ⟨old, new_name, .optString, true⟩)
  | .numF => (b, ⟨old, new_name, .optF64, false⟩)
  | .numI _ => (b, ⟨old, new_name, .optI64, false⟩)
  | .obj inner =>
      let objName := toPascalCase old
      let b1 := if (lookupStruct b.structs objName).isSome then b
                else create_object_from_map b objName inner
      (b1, ⟨old, new_name, .optRecord objName, false⟩)
  | .bool _ => (b, ⟨old, new_name, .optBool, false⟩)
  | .arr (.obj inner :: _) =>
      let objName := toPascalCase (toSingular old)
      let b1 := if (lookupStruct b.structs objName).isSome then b
                else create_object_from_map b objName inner
      (b1, ⟨old, new_name, .optVecRecord objName, false⟩)
  | .arr _ => (b, ⟨old, new_name, .optRawJson, false⟩)
  | .null => (b, ⟨old, new_name, .optRawJson, false⟩)
termination_by (sizeOf v, 0)

/-- The `input_fields.iter().map(..)` fold, threading the builder. -/
def processFields (b : Builder) : List (String × Json) → Builder × List FieldSpec
  | [] => (b, [])
  | (k, v) :: rest =>
      let r1 := processField b k v
      let r2 := processFields r1.1 rest
      (r2.1, r1.2 :: r2.2)
termination_by l => (sizeOf l, 0)

/-- `Builder::create_object_from_map`: map the sample's fields in order, then
insert the record under its pascal-cased name (lines 121-130). -/
def create_object_from_map (b : Builder) (name : String)
    (fields : List (String × Json)) : Builder :=
  let r := processFields b fields
  let pname := toPascalCase name
  { structs := mapInsert r.1.structs pname ⟨pname, r.2⟩ }
termination_by (sizeOf fields, 1)

end

/-- `generate_schema` for one `(name, sample)` pair: run
`create_object_from_map` on a fresh builder. -/
def synthesize (name : String) (sample : List (String × Json)) : Builder :=
  create_object_from_map ⟨[]⟩ name sample

theorem lookupStruct_mapInsert (m : List (String × ObjectSpec)) (k : String)
    (o : ObjectSpec) : lookupStruct (mapInsert m k o) k = some o := by
  induction m with
  | nil => simp [mapInsert, lookupStruct]
  | cons p rest ih =>
      by_cases h : p.1 = k
      · simp [mapInsert, lookupStruct, h]
      · simp [mapInsert, lookupStruct, h, ih]

theorem processField_names (b : Builder) (old : String) (v : Json) :
    (processField b old v).2.old_name = old ∧
    (processField b old v).2.new_name = normalizeFieldName old := by
  cases v with
  | str s => simp [processField]
  | numF => simp [processField]
  | numI n => simp [processField]
  | obj inner => simp [processField]
  | bool bb => simp [processField]
  | arr elems =>
      cases elems with
      | nil => simp [processField]
      | cons h t => cases h <;> simp [processField]
  | null => simp [processField]

theorem processFields_names (l : List (String × Json)) : ∀ (b : Builder),
    (processFields b l).2.map (fun f => f.old_name) = l.map Prod.fst ∧
    (processFields b l).2.map (fun f => f.new_name) =
      l.map (fun p => normalizeFieldName p.1) := by
  induction l with
  | nil => intro b; simp [processFields]
  | cons p rest ih =>
      intro b
      obtain ⟨k, v⟩ := p
      simp only [processFields, List.map_cons]
      refine ⟨?_, ?_⟩
      · rw [(processField_names b k v).1, (ih _).1]
      · rw [(processField_names b k v).2, (ih _).2]

/-- C8: the synthesizer is deterministic — the same sample always yields the
same record specs — and the sample's field order is preserved: the generated
record's fields carry the sample's keys, in order, with the deterministic
normalization of each key as the field name. -/
theorem synthesize_deterministic (name : String) (sample : List (String × Json)) :
    synthesize name sample = synthesize name sample ∧
    ∃ obj, lookupStruct (synthesize name sample).structs (toPascalCase name) =
        some obj ∧
      obj.fields.map (fun f => f.old_name) = sample.map Prod.fst ∧
      obj.fields.map (fun f => f.new_name) =
        sample.map (fun p => normalizeFieldName p.1) := by
  refine ⟨rfl, ⟨toPascalCase name, (processFields ⟨[]⟩ sample).2⟩, ?_, ?_, ?_⟩
  · simp only [synthesize, create_object_from_map]
    exact lookupStruct_mapInsert _ _ _
  · exact (processFields_names sample ⟨[]⟩).1
  · exact (processFields_names sample ⟨[]⟩).2

/-! ### C10: empty-string-as-none semantics of generated string fields -/

/-- Decoding of a generated string-typed field under its serde attributes
(`default` + `serde_with::rust::string_empty_as_none::deserialize`, external
crates): an absent field or JSON `null` decodes to `None`, `""` decodes to
`None`, any other JSON string to `Some`, and a non-string value is a decode
error. -/
def decodeStringField : Option Json → Except Unit (Option String)
  | none => .ok none
  | some .null => .ok none
  | some (.str s) => .ok (if s = "" then none else some s)
  | some _ => .error ()

/-- Serde serialization of the generated `Option<String>` field (no custom
serializer is attached): `None` is `null`, `Some s` is the string. -/
def serializeOptString : Option String → Json
  | none => Json.null
  | some s => Json.str s

/-- C10: a field synthesized from a string sample value is `Option<String>`
with the empty-string-as-none attributes; `""` and absent fields decode to
`None`, `None` serializes as `null`, and a successfully decoded value is
never the empty string. -/
theorem string_empty_as_none (b : Builder) (old s : String) (v : Option Json)
    (r : String) :
    (processField b old (Json.str s)).2.ty = FieldTy.optString ∧
    (processField b old (Json.str s)).2.emptyStringAsNone = true ∧
    decodeStringField (some (Json.str "")) = Except.ok none ∧
    decodeStringField none = Except.ok none ∧
    serializeOptString none = Json.null ∧
    (decodeStringField v = Except.ok (some r) → r ≠ "") := by
  refine ⟨by simp [processField], by simp [processField], rfl, rfl, rfl, ?_⟩
  intro h hr
  subst hr
  cases v with
  | none => simp [decodeStringField] at h
  | some j =>
      cases j with
      | str s2 =>
          by_cases h2 : s2 = ""
          · simp [decodeStringField, h2] at h
          · simp [decodeStringField, h2] at h
      | null => simp [decodeStringField] at h
      | bool bb => simp [decodeStringField] at h
      | numI n => simp [decodeStringField] at h
      | numF => simp [decodeStringField] at h
      | arr es => simp [decodeStringField] at h
      | obj fs => simp [decodeStringField] at h

/-- Witness for C10 at concrete inputs. -/
theorem string_empty_as_none_witness :
    (processField ⟨[]⟩ "description" (Json.str "")).2.ty = FieldTy.optString ∧
    ("hi" : String) ≠ "" := by
  have h := string_empty_as_none ⟨[]⟩ "description" "" (some (Json.str "hi")) "hi"
  exact ⟨h.1, h.2.2.2.2.2 rfl⟩

end Teamwork
